import Mathlib

/-!
Shallow embedding of the saleor warehouse stock-availability and
reservation core (`saleor/warehouse/availability.py` and
`saleor/warehouse/reservations.py`), with theorems settling the frozen
claims about it.

Conventions of the embedding:
* Database rows become records; the relevant tables are carried in a `DB`
  record of lists. The current time is an explicit `Int` parameter
  (seconds); `timezone.now()` becomes that parameter.
* Querysets become list filters; SQL aggregation becomes list sums. The
  single aggregate of `_get_available_quantity` joins stocks with their
  allocations, so it is embedded through an explicit joined-row list
  (`SUM(DISTINCT quantity)` sums each distinct value of the quantity
  column once; `SUM(allocations__quantity_allocated)` sums over the
  joined rows, ignoring nulls).
* Exceptions become `Except` results: `InsufficientStock` carries its
  list of `InsufficientStockData` entries, and the crash mode of
  `reserve_stocks` (`TypeError` from unpacking a `None` returned by
  `_create_reservations` for a zero-quantity line) is an explicit error
  value.
* In `reserve_stocks`, `stocks_id` is a *generator* over the locked
  stocks' ids. The allocation query consumes it; the reservation query
  then filters `stock_id__in` over the exhausted generator, so its
  result list is always empty and the per-stock reserved baseline is
  identically zero (the loop that would build it — and would read the
  stale `allocation` variable — never runs). The embedding models this
  through `consumedStocksId`.
-/

namespace Saleor

/-- A stock row: unique pair (warehouse, variant) with a quantity.
Fields mirror the columns read by the core (`pk`, `product_variant`,
`quantity`); the warehouse itself is irrelevant to the algorithms. -/
structure Stock where
  pk : Nat
  productVariant : Nat
  quantity : Int
  deriving DecidableEq, Repr

/-- An allocation row: a permanent hold of `quantity_allocated` units of
one stock (read-only input to this core). -/
structure Allocation where
  stockId : Nat
  quantityAllocated : Int
  deriving DecidableEq, Repr

/-- A reservation row: a temporary hold of `quantity_reserved` units of
one stock against one checkout line, valid until `reserved_until`. -/
structure Reservation where
  checkoutLine : Nat
  stockId : Nat
  quantityReserved : Int
  reservedUntil : Int
  deriving DecidableEq, Repr

/-- A product variant: carries the `track_inventory` flag. -/
structure Variant where
  pk : Nat
  track_inventory : Bool
  deriving DecidableEq, Repr

/-- A checkout line: identity plus requested quantity. -/
structure CheckoutLine where
  pk : Nat
  quantity : Int
  deriving DecidableEq, Repr

/-- Embeds `CheckoutLineInfo`: the per-line input of `reserve_stocks`; the
variant may be absent (`line_info.variant` can be `None`). -/
structure CheckoutLineInfo where
  line : CheckoutLine
  variant : Option Variant
  deriving DecidableEq, Repr

/-- The persistent state visible to this core: the stock rows already
scoped to the relevant country by the external routing collaborator,
plus the allocation and reservation tables. -/
structure DB where
  stocks : List Stock
  allocations : List Allocation
  reservations : List Reservation
  deriving DecidableEq, Repr

/-- One entry of an `InsufficientStock` fault: a variant, an optional
checkout line and an optional known available quantity. -/
structure InsufficientStockData where
  variantPk : Nat
  checkoutLinePk : Option Nat
  availableQuantity : Option Int
  deriving DecidableEq, Repr

instance {ε α : Type} [DecidableEq ε] [DecidableEq α] :
    DecidableEq (Except ε α) := fun x y =>
  match x, y with
  | .ok a, .ok b =>
    if h : a = b then .isTrue (by rw [h]) else .isFalse (by simp [h])
  | .error e, .error f =>
    if h : e = f then .isTrue (by rw [h]) else .isFalse (by simp [h])
  | .ok _, .error _ => .isFalse (by simp)
  | .error _, .ok _ => .isFalse (by simp)

/-! ## Stock Ledger / Availability Checker (`availability.py`) -/

/-- Embeds `get_reserved_quantity(stocks, checkout_lines)`: sum of
`quantity_reserved` over the reservations on the given stocks that are
not expired and whose checkout line is not among the excluded lines.
`not_expired` and `exclude_checkout_lines` are queryset helpers outside
the given sources; modelled from the spec: a reservation is non-expired
while `reserved_until` is still strictly in the future, and excluding
lines drops reservations whose checkout line is in the given list. -/
def get_reserved_quantity (db : DB) (now : Int) (stockPks : List Nat)
    (lines : List Nat) : Int :=
  ((db.reservations.filter (fun r =>
      decide (r.stockId ∈ stockPks) && decide (now < r.reservedUntil) &&
      decide (r.checkoutLine ∉ lines))).map (·.quantityReserved)).sum

/-- The joined rows underlying the single aggregate of
`_get_available_quantity`: each stock paired with each of its
allocations, or with `none` when it has no allocation (LEFT JOIN). -/
def joinedAllocationRows (db : DB) (stocks : List Stock) :
    List (Stock × Option Allocation) :=
  stocks.flatMap (fun s =>
    match db.allocations.filter (fun a => decide (a.stockId = s.pk)) with
    | [] => [(s, none)]
    | l => l.map (fun a => (s, some a)))

/-- Embeds `_get_available_quantity(stocks, checkout_lines)`: one aggregate over
the stocks joined with their allocations. `total_quantity` is
`Coalesce(Sum("quantity", distinct=True), 0)`, i.e. the sum of the
distinct values of the quantity column among the joined rows;
`quantity_allocated` is `Coalesce(Sum("allocations__quantity_allocated"),
0)` over the joined rows; the result is clamped at zero. -/
def get_available_quantity_agg (db : DB) (now : Int) (stocks : List Stock)
    (lines : List Nat) : Int :=
  let rows := joinedAllocationRows db stocks
  let total := ((rows.map (fun p => p.1.quantity)).dedup).sum
  let alloc := (rows.filterMap (fun p => p.2.map (·.quantityAllocated))).sum
  let reserved := get_reserved_quantity db now (stocks.map (·.pk)) lines
  max (total - alloc - reserved) 0

/-- Embeds `check_stock_quantity(variant, country, quantity, checkout_lines)`:
no-op for a variant that does not track inventory; otherwise fails when
there are no candidate stocks or the requested quantity exceeds the
available quantity. The candidate stocks (external routing) are passed
in directly. -/
def check_stock_quantity (db : DB) (now : Int) (variant : Variant)
    (stocks : List Stock) (quantity : Int) (lines : List Nat) :
    Except (List InsufficientStockData) Unit :=
  if variant.track_inventory then
    if stocks = [] then
      .error [⟨variant.pk, none, none⟩]
    else if quantity > get_available_quantity_agg db now stocks lines then
      .error [⟨variant.pk, none, none⟩]
    else
      .ok ()
  else
    .ok ()

/-- Modelled from the spec: the missing `Stock` queryset method
`annotate_available_quantity`, the per-stock annotation read by
`check_stock_quantity_bulk` and `is_product_in_stock`. The spec's ledger
defines `availableQuantity = max(total - allocated - reserved, 0)`, and
the bulk checker sums this annotation over a variant's stocks and then
subtracts the reservations before clamping, so the annotation is the
reservation-free, unclamped per-stock value: the stock's quantity minus
the committed allocations on it. -/
def annotatedAvailable (db : DB) (s : Stock) : Int :=
  s.quantity -
    ((db.allocations.filter (fun a => decide (a.stockId = s.pk))).map
      (·.quantityAllocated)).sum

/-- The `stocks_variants` dictionary of `get_reserved_quantity_bulk`:
maps a stock id to the variant of the (last) given stock carrying it. -/
def stockVariantLookup (stocks : List Stock) (sid : Nat) : Option Nat :=
  ((stocks.filter (fun s => decide (s.pk = sid))).getLast?).map
    (·.productVariant)

/-- Embeds `get_reserved_quantity_bulk(stocks, checkout_lines)` evaluated at one
variant key: the summed `quantity_reserved` of the non-expired,
non-excluded reservations on the given stocks whose stock maps to this
variant. The source guards the dictionary update with the truthiness of
`variant_id`, so key `0` never accumulates anything. -/
def get_reserved_quantity_bulk (db : DB) (now : Int) (stocks : List Stock)
    (lines : List Nat) (vPk : Nat) : Int :=
  if vPk = 0 then 0
  else
    ((db.reservations.filter (fun r =>
        decide (r.stockId ∈ stocks.map (·.pk)) &&
        decide (now < r.reservedUntil) &&
        decide (r.checkoutLine ∉ lines) &&
        decide (stockVariantLookup stocks r.stockId = some vPk))).map
      (·.quantityReserved)).sum

/-- The fault entries `check_stock_quantity_bulk` accumulates for one
`(variant, quantity)` pair of the zipped input: the zero-stock entry is
appended whenever the variant has no candidate stocks, and the shortfall
entry whenever the variant tracks inventory and the requested quantity
exceeds the clamped available quantity. -/
def bulkPairFaults (db : DB) (now : Int) (allStocks : List Stock)
    (lines : List Nat) (p : Variant × Int) : List InsufficientStockData :=
  let stocks := allStocks.filter (fun s => decide (s.productVariant = p.1.pk))
  let availableQuantity :=
    max ((stocks.map (annotatedAvailable db)).sum -
      get_reserved_quantity_bulk db now allStocks lines p.1.pk) 0
  (if stocks = [] then [⟨p.1.pk, none, some availableQuantity⟩] else []) ++
  (if p.1.track_inventory ∧ p.2 > availableQuantity then
    [⟨p.1.pk, none, some availableQuantity⟩] else [])

/-- Embeds `check_stock_quantity_bulk(variants, country, quantities,
checkout_lines)`: one batched pass over all candidate stocks of the given
variants; every `(variant, quantity)` pair is evaluated and all faults
are raised together. -/
def check_stock_quantity_bulk (db : DB) (now : Int)
    (variants : List Variant) (quantities : List Int) (lines : List Nat) :
    Except (List InsufficientStockData) Unit :=
  let allStocks :=
    db.stocks.filter (fun s =>
      decide (s.productVariant ∈ variants.map (·.pk)))
  let faults :=
    (variants.zip quantities).flatMap (bulkPairFaults db now allStocks lines)
  if faults = [] then .ok () else .error faults

/-- Embeds `is_product_in_stock(product, country)`: the product's candidate
stocks annotated with `available_quantity`, passed to Python's `any`;
`any` over integers is true exactly when some value is nonzero. The
product is given by the list of its variants' pks. -/
def is_product_in_stock (db : DB) (productVariantPks : List Nat) : Bool :=
  (db.stocks.filter (fun s =>
      decide (s.productVariant ∈ productVariantPks))).any
    (fun s => decide (annotatedAvailable db s ≠ 0))

/-! ## Reservation Coordinator (`reservations.py`) -/

/-- Embeds `RESERVATION_TTL = timedelta(seconds=15 * 60)`, in seconds. -/
def RESERVATION_TTL : Int := 15 * 60

/-- Embeds `_get_expiration_datetime()`: `timezone.now() - RESERVATION_TTL`
(the source subtracts the TTL from the current time). -/
def get_expiration_datetime (now : Int) : Int :=
  now - RESERVATION_TTL

/-- The `StockData` namedtuple: pk and quantity of a locked stock row. -/
structure StockData where
  pk : Nat
  quantity : Int
  deriving DecidableEq, Repr

/-- The errors `reserve_stocks` can raise: the aggregated
`InsufficientStock`, and the `TypeError` from unpacking the `None` that
`_create_reservations` returns for a zero-quantity line. -/
inductive ReserveErr where
  | typeError : ReserveErr
  | insufficientStock : List InsufficientStockData → ReserveErr
  deriving DecidableEq, Repr

/-- The three possible results of `_create_reservations` for one line:
the list of new reservations when the line was fully reserved inside the
loop, a recorded fault when the stocks were exhausted short, and the
implicit `None` return when the loop ends with the reserved quantity
already equal to the requested one (a zero-quantity line). -/
inductive CRResult where
  | ok : List Reservation → CRResult
  | fault : CRResult
  | noneReturn : CRResult
  deriving DecidableEq, Repr

/-- Embeds `get_checkout_lines_with_track_inventory`: keep the lines whose
variant is present and tracks inventory. -/
def get_checkout_lines_with_track_inventory
    (linesInfo : List CheckoutLineInfo) : List CheckoutLineInfo :=
  linesInfo.filter (fun li =>
    match li.variant with
    | some v => v.track_inventory
    | none => false)

/-- The variant pk of a line (`line_info.variant.pk`; the cast in the
source asserts the variant is present, `0` is the unreachable default). -/
def lineVariantPk (li : CheckoutLineInfo) : Nat :=
  match li.variant with
  | some v => v.pk
  | none => 0

/-- The `variants` list collected by `reserve_stocks` (one pk per
tracked line). -/
def batchVariantPks (linesInfo : List CheckoutLineInfo) : List Nat :=
  (get_checkout_lines_with_track_inventory linesInfo).filterMap
    (fun li => li.variant.map (·.pk))

/-- The `checkout_lines` list collected by `reserve_stocks` (one line pk
per tracked line). -/
def batchLinePks (linesInfo : List CheckoutLineInfo) : List Nat :=
  (get_checkout_lines_with_track_inventory linesInfo).map (·.line.pk)

/-- Insert one stock into a list sorted by ascending pk. -/
def insertByPk (s : Stock) : List Stock → List Stock
  | [] => [s]
  | t :: ts => if s.pk ≤ t.pk then s :: t :: ts else t :: insertByPk s ts

/-- Sort stock rows by ascending pk (`order_by("pk")`). -/
def order_by_pk : List Stock → List Stock
  | [] => []
  | s :: ss => insertByPk s (order_by_pk ss)

/-- The stock rows `reserve_stocks` locks: the candidate stocks of the
batch's variants, in ascending pk order (`select_for_update ...
.order_by("pk")`). -/
def lockedStocks (db : DB) (linesInfo : List CheckoutLineInfo) :
    List Stock :=
  order_by_pk (db.stocks.filter (fun s =>
    decide (s.productVariant ∈ batchVariantPks linesInfo)))

/-- The pks of the locked stock rows. -/
def lockedStockPks (db : DB) (linesInfo : List CheckoutLineInfo) :
    List Nat :=
  (lockedStocks db linesInfo).map (·.pk)

/-- Embeds `quantity_allocation_list`: the allocations on the locked stocks with
a positive allocated quantity (grouping by stock only redistributes the
rows, so the row list itself is kept). -/
def positiveAllocations (db : DB) (linesInfo : List CheckoutLineInfo) :
    List Allocation :=
  db.allocations.filter (fun a =>
    decide (a.stockId ∈ lockedStockPks db linesInfo) &&
    decide (0 < a.quantityAllocated))

/-- Embeds `quantity_allocation_for_stocks`: per-stock sum of the positive
allocated quantities (missing key defaults to `0`). -/
def quantity_allocation_for_stocks (db : DB)
    (linesInfo : List CheckoutLineInfo) (k : Nat) : Int :=
  (((positiveAllocations db linesInfo).filter (fun a =>
      decide (a.stockId = k))).map (·.quantityAllocated)).sum

/-- The `stocks_id` generator as the reservation query sees it. The
source builds `stocks_id = (stock.pop("id") for stock in stocks)` — a
generator — and the allocation query's `stock_id__in` consumes it when
that query is evaluated. By the time the reservation query reads its own
`stock_id__in=stocks_id`, the generator is exhausted and yields no id at
all. -/
def consumedStocksId : List Nat := []

/-- Embeds `quantity_reservation_list`: the reservation query filters on
`stock_id__in=stocks_id` with `stocks_id` already exhausted by the
allocation query (`consumedStocksId`), so whatever reservations the
table holds, the query matches nothing and the list is always empty. -/
def quantity_reservation_list (db : DB) (now : Int)
    (linesInfo : List CheckoutLineInfo) : List Reservation :=
  db.reservations.filter (fun r =>
    decide (r.stockId ∈ consumedStocksId) &&
    decide (0 < r.quantityReserved) &&
    decide (now < r.reservedUntil) &&
    decide (r.checkoutLine ∉ batchLinePks linesInfo))

theorem quantity_reservation_list_eq_nil (db : DB) (now : Int)
    (linesInfo : List CheckoutLineInfo) :
    quantity_reservation_list db now linesInfo = [] := by
  unfold quantity_reservation_list
  rw [List.filter_eq_nil_iff]
  intro r _
  simp [consumedStocksId]

/-- Embeds `quantity_reservation_for_stocks`: the dictionary built by
looping over `quantity_reservation_list`, adding each group's sum under
the key `allocation["stock"]` (a stale variable of the previous loop).
Since `quantity_reservation_list` is always empty, the loop never runs —
both the stale-key slip and the potential unbound-variable read are dead
code — and every key reads the defaultdict's `0`. -/
def quantity_reservation_for_stocks (db : DB) (now : Int)
    (linesInfo : List CheckoutLineInfo) (k : Nat) : Int :=
  match (positiveAllocations db linesInfo).getLast? with
  | some a =>
      if k = a.stockId then
        ((quantity_reservation_list db now linesInfo).map
          (·.quantityReserved)).sum
      else 0
  | none => 0

theorem quantity_reservation_for_stocks_eq_zero (db : DB) (now : Int)
    (linesInfo : List CheckoutLineInfo) (k : Nat) :
    quantity_reservation_for_stocks db now linesInfo k = 0 := by
  unfold quantity_reservation_for_stocks
  rw [quantity_reservation_list_eq_nil]
  cases (positiveAllocations db linesInfo).getLast? with
  | none => rfl
  | some a => simp

/-- Embeds `variant_to_stocks`: the locked stocks of one variant, in the locked
(ascending pk) order, as `StockData` rows. -/
def variant_to_stocks (db : DB) (linesInfo : List CheckoutLineInfo)
    (vPk : Nat) : List StockData :=
  ((lockedStocks db linesInfo).filter (fun s =>
      decide (s.productVariant = vPk))).map (fun s => ⟨s.pk, s.quantity⟩)

/-- The stock-walking loop of `_create_reservations`: at each stock
compute the clamped availability, reserve the minimum of the remaining
need and that availability, and return early once the requested quantity
is reached. Returns the reserved total, the accumulated reservations and
whether the loop returned early. -/
def crLoop (q : Int) (allocD resD : Nat → Int) (linePk : Nat)
    (expiry : Int) :
    List StockData → Int → List Reservation →
      Int × List Reservation × Bool
  | [], qReserved, acc => (qReserved, acc, false)
  | sd :: rest, qReserved, acc =>
    let avail := max (sd.quantity - allocD sd.pk - resD sd.pk) 0
    let toReserve := min (q - qReserved) avail
    if 0 < toReserve then
      let acc2 := acc ++ [⟨linePk, sd.pk, toReserve, expiry⟩]
      let qR2 := qReserved + toReserve
      if qR2 = q then (qR2, acc2, true)
      else crLoop q allocD resD linePk expiry rest qR2 acc2
    else crLoop q allocD resD linePk expiry rest qReserved acc

/-- Embeds `_create_reservations` for one line: run the stock walk; an early
return yields the new reservations, a shortfall records a fault, and if
the loop ends with the reserved quantity equal to the requested one the
function falls off its end and returns `None`. -/
def create_reservations (linePk : Nat) (q : Int) (stocks : List StockData)
    (allocD resD : Nat → Int) (expiry : Int) : CRResult :=
  let r := crLoop q allocD resD linePk expiry stocks 0 []
  if r.2.2 then .ok r.2.1
  else if r.1 ≠ q then .fault
  else .noneReturn

/-- The fault entry recorded for an unsatisfiable line
(`InsufficientStockData(variant=..., checkout_line=...)`). -/
def mkInsufficientData (li : CheckoutLineInfo) : InsufficientStockData :=
  ⟨lineVariantPk li, some li.line.pk, none⟩

/-- The `_create_reservations` call of `reserve_stocks` for one line. -/
def lineWalk (db : DB) (now : Int) (linesInfo : List CheckoutLineInfo)
    (li : CheckoutLineInfo) : CRResult :=
  create_reservations li.line.pk li.line.quantity
    (variant_to_stocks db linesInfo (lineVariantPk li))
    (quantity_allocation_for_stocks db linesInfo)
    (quantity_reservation_for_stocks db now linesInfo)
    (get_expiration_datetime now)

/-- The per-line loop of `reserve_stocks`: each tracked line is walked in
order, faults and new reservations accumulate; a `None` return from
`_create_reservations` aborts the loop with `TypeError` at the unpacking
assignment. -/
def processLines (db : DB) (now : Int)
    (linesInfo : List CheckoutLineInfo) :
    List CheckoutLineInfo → List InsufficientStockData →
      List Reservation →
      Except ReserveErr (List InsufficientStockData × List Reservation)
  | [], ins, rs => .ok (ins, rs)
  | li :: rest, ins, rs =>
    match lineWalk db now linesInfo li with
    | .noneReturn => .error .typeError
    | .fault =>
        processLines db now linesInfo rest (ins ++ [mkInsufficientData li])
          rs
    | .ok newRs => processLines db now linesInfo rest ins (rs ++ newRs)

/-- Embeds `reserve_stocks(checkout_lines_info, country_code)`: filter to
tracked lines, lock the candidate stocks, build the per-stock allocation
baseline and the (always empty) reservation baseline, walk every line,
and either raise the accumulated `InsufficientStock`, or commit by
deleting the batch lines' previous reservations and inserting the new
ones. Returns the new database state on success. -/
def reserve_stocks (db : DB) (now : Int)
    (linesInfo : List CheckoutLineInfo) : Except ReserveErr DB :=
  let tracked := get_checkout_lines_with_track_inventory linesInfo
  if tracked = [] then .ok db
  else
    match processLines db now linesInfo tracked [] [] with
    | .error e => .error e
    | .ok (ins, rs) =>
      if ins ≠ [] then .error (.insufficientStock ins)
      else
        .ok (if rs ≠ [] then
          { db with
            reservations :=
              (if batchLinePks linesInfo ≠ [] then
                db.reservations.filter (fun r =>
                  decide (r.checkoutLine ∉ batchLinePks linesInfo))
              else db.reservations) ++ rs }
        else db)

/-- The state after a `reserve_stocks` call as seen by the caller: the
new state on success, the unchanged one when the transaction rolled
back. -/
def commit_reserve (db : DB) (now : Int)
    (linesInfo : List CheckoutLineInfo) : DB :=
  match reserve_stocks db now linesInfo with
  | .ok db2 => db2
  | .error _ => db

/-! ## Helper characterizations -/

/-- The greedy walk stated from the spec's words (section 4.3 step 5),
for refinement comparison with `_create_reservations`: at each stock of
the ordered list compute `availableHere = max(quantity - allocated -
reservedBaseline, 0)`, reserve `min(remainingNeeded, availableHere)`,
advance until `remainingNeeded` reaches zero or the stocks are
exhausted. -/
def specGreedyWalk (linePk : Nat) (expiry : Int)
    (allocD resD : Nat → Int) :
    List StockData → Int → List Reservation
  | [], _ => []
  | sd :: rest, remaining =>
    if remaining ≤ 0 then []
    else
      let availHere := max (sd.quantity - allocD sd.pk - resD sd.pk) 0
      let toReserve := min remaining availHere
      (if 0 < toReserve then [⟨linePk, sd.pk, toReserve, expiry⟩]
        else []) ++
        specGreedyWalk linePk expiry allocD resD rest
          (remaining - toReserve)

theorem specGreedyWalk_nonpos (linePk : Nat) (expiry : Int)
    (allocD resD : Nat → Int) (stocks : List StockData) (r : Int)
    (hr : r ≤ 0) :
    specGreedyWalk linePk expiry allocD resD stocks r = [] := by
  cases stocks with
  | nil => rfl
  | cons sd rest => simp [specGreedyWalk, hr]

theorem crLoop_acc (q : Int) (allocD resD : Nat → Int) (linePk : Nat)
    (expiry : Int) (stocks : List StockData) :
    ∀ (qReserved : Int) (acc : List Reservation),
      (crLoop q allocD resD linePk expiry stocks qReserved acc).2.1 =
        acc ++ specGreedyWalk linePk expiry allocD resD stocks
          (q - qReserved) := by
  induction stocks with
  | nil => intro qReserved acc; simp [crLoop, specGreedyWalk]
  | cons sd rest ih =>
    intro qReserved acc
    simp only [crLoop, specGreedyWalk]
    by_cases h1 : 0 < min (q - qReserved)
        (max (sd.quantity - allocD sd.pk - resD sd.pk) 0)
    · have hrem : ¬ q - qReserved ≤ 0 := by
        intro hle
        have := min_le_left (q - qReserved)
          (max (sd.quantity - allocD sd.pk - resD sd.pk) 0)
        omega
      rw [if_pos h1, if_neg hrem, if_pos h1]
      by_cases h2 : qReserved + min (q - qReserved)
          (max (sd.quantity - allocD sd.pk - resD sd.pk) 0) = q
      · rw [if_pos h2]
        have hzero : q - qReserved - min (q - qReserved)
            (max (sd.quantity - allocD sd.pk - resD sd.pk) 0) = 0 := by
          omega
        rw [hzero, specGreedyWalk_nonpos _ _ _ _ _ _ le_rfl]
        simp
      · rw [if_neg h2, ih]
        have harith : q - (qReserved + min (q - qReserved)
            (max (sd.quantity - allocD sd.pk - resD sd.pk) 0)) =
            q - qReserved - min (q - qReserved)
              (max (sd.quantity - allocD sd.pk - resD sd.pk) 0) := by
          omega
        rw [harith]
        simp
    · rw [if_neg h1, ih]
      by_cases hrem : q - qReserved ≤ 0
      · rw [if_pos hrem,
          specGreedyWalk_nonpos _ _ _ _ _ _ hrem]
      · rw [if_neg hrem]
        have hmax : (0 : Int) ≤
            max (sd.quantity - allocD sd.pk - resD sd.pk) 0 :=
          le_max_right _ _
        have hzero : min (q - qReserved)
            (max (sd.quantity - allocD sd.pk - resD sd.pk) 0) = 0 := by
          rcases min_cases (q - qReserved)
            (max (sd.quantity - allocD sd.pk - resD sd.pk) 0) with
            ⟨hc, hle⟩ | ⟨hc, hle⟩ <;> omega
        rw [hzero]
        simp

theorem crLoop_zero (allocD resD : Nat → Int) (linePk : Nat)
    (expiry : Int) (stocks : List StockData) :
    ∀ acc, crLoop 0 allocD resD linePk expiry stocks 0 acc =
      (0, acc, false) := by
  induction stocks with
  | nil => intro acc; rfl
  | cons sd rest ih =>
    intro acc
    have hmax : (0 : Int) ≤
        max (sd.quantity - allocD sd.pk - resD sd.pk) 0 :=
      le_max_right _ _
    have hmin : ¬ 0 < min ((0 : Int) - 0)
        (max (sd.quantity - allocD sd.pk - resD sd.pk) 0) := by
      rcases min_cases ((0 : Int) - 0)
        (max (sd.quantity - allocD sd.pk - resD sd.pk) 0) with
        ⟨hc, hle⟩ | ⟨hc, hle⟩ <;> omega
    simp only [crLoop]
    rw [if_neg hmin]
    exact ih acc

theorem crLoop_not_early (q : Int) (allocD resD : Nat → Int)
    (linePk : Nat) (expiry : Int) (stocks : List StockData) :
    ∀ (qReserved : Int) (acc : List Reservation),
      (crLoop q allocD resD linePk expiry stocks qReserved acc).2.2 =
        false →
      (crLoop q allocD resD linePk expiry stocks qReserved acc).1 = q →
      qReserved = q := by
  induction stocks with
  | nil => intro qReserved acc _ hq; exact hq
  | cons sd rest ih =>
    intro qReserved acc hearly hq
    simp only [crLoop] at hearly hq
    by_cases h1 : 0 < min (q - qReserved)
        (max (sd.quantity - allocD sd.pk - resD sd.pk) 0)
    · rw [if_pos h1] at hearly hq
      by_cases h2 : qReserved + min (q - qReserved)
          (max (sd.quantity - allocD sd.pk - resD sd.pk) 0) = q
      · rw [if_pos h2] at hearly
        simp at hearly
      · rw [if_neg h2] at hearly hq
        exact absurd (ih _ _ hearly hq) h2
    · rw [if_neg h1] at hearly hq
      exact ih _ _ hearly hq

theorem create_reservations_noneReturn_iff (linePk : Nat) (q : Int)
    (stocks : List StockData) (allocD resD : Nat → Int) (expiry : Int) :
    create_reservations linePk q stocks allocD resD expiry =
      .noneReturn ↔ q = 0 := by
  constructor
  · intro h
    unfold create_reservations at h
    by_cases hearly :
        (crLoop q allocD resD linePk expiry stocks 0 []).2.2
    · simp [hearly] at h
    · rw [if_neg (by simpa using hearly)] at h
      by_cases hq : (crLoop q allocD resD linePk expiry stocks 0 []).1 = q
      · exact (crLoop_not_early q allocD resD linePk expiry stocks 0 []
          (by simpa using hearly) hq).symm
      · simp [hq] at h
  · intro h
    subst h
    unfold create_reservations
    rw [crLoop_zero]
    simp

/-- The new reservations contributed by one line (empty unless its walk
succeeded). -/
def walkReservations (db : DB) (now : Int)
    (linesInfo : List CheckoutLineInfo) (li : CheckoutLineInfo) :
    List Reservation :=
  match lineWalk db now linesInfo li with
  | .ok rs => rs
  | _ => []

/-- The fault entries accumulated over a list of lines: one entry per
line whose walk ran short, in order. -/
def walkFaults (db : DB) (now : Int) (linesInfo : List CheckoutLineInfo)
    (l : List CheckoutLineInfo) : List InsufficientStockData :=
  (l.filter (fun li =>
      decide (lineWalk db now linesInfo li = .fault))).map
    mkInsufficientData

theorem processLines_ok (db : DB) (now : Int)
    (linesInfo : List CheckoutLineInfo) (l : List CheckoutLineInfo)
    (hnn : ∀ li ∈ l, lineWalk db now linesInfo li ≠ .noneReturn) :
    ∀ (ins : List InsufficientStockData) (rs : List Reservation),
      processLines db now linesInfo l ins rs =
        .ok (ins ++ walkFaults db now linesInfo l,
          rs ++ l.flatMap (walkReservations db now linesInfo)) := by
  induction l with
  | nil => intro ins rs; simp [processLines, walkFaults]
  | cons li rest ih =>
    intro ins rs
    have hli := hnn li (List.mem_cons_self li rest)
    have hrest : ∀ li' ∈ rest,
        lineWalk db now linesInfo li' ≠ .noneReturn := fun li' h =>
      hnn li' (List.mem_cons_of_mem li h)
    cases hw : lineWalk db now linesInfo li with
    | noneReturn => exact absurd hw hli
    | fault =>
      simp only [processLines, hw]
      rw [ih hrest]
      simp [walkFaults, walkReservations, hw, List.filter_cons]
    | ok newRs =>
      simp only [processLines, hw]
      rw [ih hrest]
      simp [walkFaults, walkReservations, hw, List.filter_cons]

theorem processLines_typeError (db : DB) (now : Int)
    (linesInfo : List CheckoutLineInfo) (l : List CheckoutLineInfo)
    (h : ∃ li ∈ l, lineWalk db now linesInfo li = .noneReturn) :
    ∀ (ins : List InsufficientStockData) (rs : List Reservation),
      processLines db now linesInfo l ins rs = .error .typeError := by
  induction l with
  | nil => rcases h with ⟨li, hmem, _⟩; exact absurd hmem (by simp)
  | cons li rest ih =>
    intro ins rs
    simp only [processLines]
    cases hw : lineWalk db now linesInfo li with
    | noneReturn => rfl
    | fault =>
      rcases h with ⟨li', hmem, hnr⟩
      rcases List.mem_cons.mp hmem with heq | hmem'
      · subst heq; rw [hw] at hnr; exact absurd hnr (by simp)
      · exact ih ⟨li', hmem', hnr⟩ _ _
    | ok newRs =>
      rcases h with ⟨li', hmem, hnr⟩
      rcases List.mem_cons.mp hmem with heq | hmem'
      · subst heq; rw [hw] at hnr; exact absurd hnr (by simp)
      · exact ih ⟨li', hmem', hnr⟩ _ _

theorem lineWalk_noneReturn_iff (db : DB) (now : Int)
    (linesInfo : List CheckoutLineInfo) (li : CheckoutLineInfo) :
    lineWalk db now linesInfo li = .noneReturn ↔
      li.line.quantity = 0 := by
  unfold lineWalk
  exact create_reservations_noneReturn_iff _ _ _ _ _ _

/-! ## Concrete inputs used by the claim theorems -/

/-- A tracked variant with pk 1. -/
def variant1 : Variant := ⟨1, true⟩

/-- Scenario A state: one stock of variant 1 with quantity 10. -/
def dbScenA : DB := ⟨[⟨1, 1, 10⟩], [], []⟩

/-- Scenario A request: checkout line 11 asking for 5 of variant 1. -/
def lineA : CheckoutLineInfo := ⟨⟨11, 5⟩, some variant1⟩

/-- State for the reserved-baseline defect: stock 1 (quantity 5) and
stock 2 (quantity 10) of variant 1, one allocation of 1 on stock 2, and
a live reservation of 5 on stock 1 held by the unrelated line 99. -/
def dbBaseline : DB :=
  ⟨[⟨1, 1, 5⟩, ⟨2, 1, 10⟩], [⟨2, 1⟩], [⟨99, 1, 5, 5000⟩]⟩

/-- The batch reserving 5 of variant 1 for line 11. -/
def linesBaseline : List CheckoutLineInfo := [⟨⟨11, 5⟩, some variant1⟩]

/-- State with a single stock of quantity 3 for variant 1. -/
def dbShort : DB := ⟨[⟨1, 1, 3⟩], [], []⟩

/-- A batch with a zero-quantity line followed by an unsatisfiable
line. -/
def linesZeroThenShort : List CheckoutLineInfo :=
  [⟨⟨11, 0⟩, some variant1⟩, ⟨⟨12, 5⟩, some variant1⟩]

/-- A batch with two unsatisfiable lines. -/
def linesTwoShort : List CheckoutLineInfo :=
  [⟨⟨11, 5⟩, some variant1⟩, ⟨⟨12, 4⟩, some variant1⟩]

/-- State with a candidate stock, no allocations, and a positive
non-expired reservation held by the unrelated line 99. -/
def dbOtherHold : DB := ⟨[⟨1, 1, 5⟩], [], [⟨99, 1, 2, 5000⟩]⟩

/-- A batch with a single zero-quantity tracked line. -/
def linesZero : List CheckoutLineInfo := [⟨⟨11, 0⟩, some variant1⟩]

/-- Scenario B state: two stocks of variant 1 with quantity 3 each,
listed with the higher pk first. -/
def dbScenB : DB := ⟨[⟨2, 1, 3⟩, ⟨1, 1, 3⟩], [], []⟩

/-- Two stocks of variant 1 sharing the quantity value 3. -/
def dbEqualQty : DB := ⟨[⟨1, 1, 3⟩, ⟨2, 1, 3⟩], [], []⟩

/-- The empty state. -/
def dbEmpty : DB := ⟨[], [], []⟩

/-- State for the over-reporting read: one stock of quantity 5 fully
held by a live reservation of the unrelated line 99. -/
def dbReserved : DB := ⟨[⟨1, 1, 5⟩], [], [⟨99, 1, 5, 5000⟩]⟩

/-! ## Claim theorems -/

/-- Claim C1 (code_bug): The per-stock reserved baseline used during
bin-packing does not equal the per-stock sum of non-expired reservations
from checkout lines outside the batch: the reservation query filters
`stock_id__in` over the `stocks_id` generator already exhausted by the
allocation query, so the baseline is identically zero. On `dbBaseline`
the 5 units line 99 holds on stock 1 are invisible to the walk, the
baseline read for stock 1 is 0 instead of 5, and `reserve_stocks`
therefore grants line 11 another 5-unit hold on stock 1: after the call
the reservations on stock 1 total 10, exceeding its quantity 5,
although the invariant held before the call. -/
theorem c1_reserved_baseline_miskeyed :
    quantity_reservation_for_stocks dbBaseline 1000 linesBaseline 1 = 0 ∧
    get_reserved_quantity dbBaseline 1000 [1] [11] = 5 ∧
    quantity_allocation_for_stocks dbBaseline linesBaseline 1 +
      get_reserved_quantity dbBaseline 1000 [1] [] ≤ 5 ∧
    reserve_stocks dbBaseline 1000 linesBaseline =
      .ok ⟨dbBaseline.stocks, dbBaseline.allocations,
        [⟨99, 1, 5, 5000⟩, ⟨11, 1, 5, 100⟩]⟩ ∧
    ((([⟨99, 1, 5, 5000⟩, ⟨11, 1, 5, 100⟩] : List Reservation).filter
        (fun r => decide (r.stockId = 1))).map (·.quantityReserved)).sum
      = 10 ∧ (5 : Int) < 10 := by
  refine ⟨by decide, by decide, by decide, by decide, by decide,
    by decide⟩

/-- Claim C2 (code_bug): On scenario A (stock quantity 10, request 5)
`reserve_stocks` succeeds but stamps the new reservation with
`reserved_until = now - RESERVATION_TTL`: at `now = 1000` the stored
timestamp is 100, strictly in the past, instead of the specified
`now + RESERVATION_TTL`. -/
theorem c2_reservation_expires_in_past :
    reserve_stocks dbScenA 1000 [lineA] =
      .ok ⟨dbScenA.stocks, dbScenA.allocations, [⟨11, 1, 5, 100⟩]⟩ ∧
    get_expiration_datetime 1000 = 1000 - RESERVATION_TTL ∧
    (100 : Int) = 1000 - RESERVATION_TTL ∧ (100 : Int) < 1000 := by
  refine ⟨by decide, by decide, by decide, by decide⟩

/-- Claim C3 (counterexample): A batch whose second line is unsatisfiable
(request 5 against a stock of 3) but whose first tracked line requests
quantity 0 does not raise `InsufficientStock` at all: the zero-quantity
line makes `_create_reservations` return `None`, and the call dies with
`TypeError` before the shortfall is ever reported. -/
theorem c3_counterexample :
    lineWalk dbShort 1000 linesZeroThenShort ⟨⟨12, 5⟩, some variant1⟩ =
      .fault ∧
    reserve_stocks dbShort 1000 linesZeroThenShort =
      .error .typeError ∧
    ∀ faults, reserve_stocks dbShort 1000 linesZeroThenShort ≠
      .error (.insufficientStock faults) := by
  refine ⟨by decide, by decide, ?_⟩
  intro faults h
  rw [show reserve_stocks dbShort 1000 linesZeroThenShort =
    .error .typeError from by decide] at h
  simp at h

/-- Claim C3 (amended): Provided every tracked line of the batch has a
nonzero requested quantity (a zero-quantity line instead crashes the
call with `TypeError` before any shortfall is reported), then if any
request's stock walk runs short the call raises `InsufficientStock`
carrying one entry for every unsatisfiable request, and the persistent
state is unchanged. -/
theorem c3_insufficient_aggregated (db : DB) (now : Int)
    (linesInfo : List CheckoutLineInfo)
    (hq : ∀ li ∈ get_checkout_lines_with_track_inventory linesInfo,
      li.line.quantity ≠ 0)
    (hunsat : ∃ li ∈ get_checkout_lines_with_track_inventory linesInfo,
      lineWalk db now linesInfo li = .fault) :
    reserve_stocks db now linesInfo =
      .error (.insufficientStock (walkFaults db now linesInfo
        (get_checkout_lines_with_track_inventory linesInfo))) ∧
    (∀ li ∈ get_checkout_lines_with_track_inventory linesInfo,
      lineWalk db now linesInfo li = .fault →
        mkInsufficientData li ∈ walkFaults db now linesInfo
          (get_checkout_lines_with_track_inventory linesInfo)) ∧
    commit_reserve db now linesInfo = db := by
  obtain ⟨li0, hmem0, hfault0⟩ := hunsat
  have htracked :
      get_checkout_lines_with_track_inventory linesInfo ≠ [] :=
    List.ne_nil_of_mem hmem0
  have hnn : ∀ li ∈ get_checkout_lines_with_track_inventory linesInfo,
      lineWalk db now linesInfo li ≠ .noneReturn := by
    intro li hmem hcon
    exact hq li hmem ((lineWalk_noneReturn_iff db now linesInfo li).mp
      hcon)
  have hmemF : ∀ li ∈ get_checkout_lines_with_track_inventory linesInfo,
      lineWalk db now linesInfo li = .fault →
        mkInsufficientData li ∈ walkFaults db now linesInfo
          (get_checkout_lines_with_track_inventory linesInfo) := by
    intro li hmem hfault
    unfold walkFaults
    exact List.mem_map_of_mem _
      (List.mem_filter.mpr ⟨hmem, by simp [hfault]⟩)
  have hfne : walkFaults db now linesInfo
      (get_checkout_lines_with_track_inventory linesInfo) ≠ [] :=
    List.ne_nil_of_mem (hmemF li0 hmem0 hfault0)
  have hmain : reserve_stocks db now linesInfo =
      .error (.insufficientStock (walkFaults db now linesInfo
        (get_checkout_lines_with_track_inventory linesInfo))) := by
    unfold reserve_stocks
    rw [if_neg htracked,
      processLines_ok db now linesInfo _ hnn]
    simp [hfne]
  refine ⟨hmain, hmemF, ?_⟩
  unfold commit_reserve
  rw [hmain]

/-- Witness for the amended C3: scenario D with two short lines (stock 3
against requests 5 and 4) raises the aggregated fault naming both lines
and leaves the state unchanged. -/
theorem c3_witness :
    reserve_stocks dbShort 1000 linesTwoShort =
      .error (.insufficientStock (walkFaults dbShort 1000 linesTwoShort
        (get_checkout_lines_with_track_inventory linesTwoShort))) ∧
    (∀ li ∈ get_checkout_lines_with_track_inventory linesTwoShort,
      lineWalk dbShort 1000 linesTwoShort li = .fault →
        mkInsufficientData li ∈ walkFaults dbShort 1000 linesTwoShort
          (get_checkout_lines_with_track_inventory linesTwoShort)) ∧
    commit_reserve dbShort 1000 linesTwoShort = dbShort :=
  c3_insufficient_aggregated dbShort 1000 linesTwoShort (by decide)
    ⟨⟨⟨11, 5⟩, some variant1⟩, by decide, by decide⟩

/-- Claim C10 (confirmed): Every `reserve_stocks` batch containing at
least one checkout line whose variant tracks inventory and whose
requested quantity is zero raises `TypeError` — the per-line helper
falls off its end and returns `None` for that line, which the caller
unpacks as a pair — rather than succeeding or raising
`InsufficientStock`. -/
theorem c10_zero_quantity_type_error (db : DB) (now : Int)
    (linesInfo : List CheckoutLineInfo)
    (h0 : ∃ li ∈ get_checkout_lines_with_track_inventory linesInfo,
      li.line.quantity = 0) :
    reserve_stocks db now linesInfo = .error .typeError ∧
    (∀ db2, reserve_stocks db now linesInfo ≠ .ok db2) ∧
    (∀ faults, reserve_stocks db now linesInfo ≠
      .error (.insufficientStock faults)) := by
  obtain ⟨li0, hmem0, hq0⟩ := h0
  have htracked :
      get_checkout_lines_with_track_inventory linesInfo ≠ [] :=
    List.ne_nil_of_mem hmem0
  have hmain : reserve_stocks db now linesInfo = .error .typeError := by
    unfold reserve_stocks
    rw [if_neg htracked,
      processLines_typeError db now linesInfo _
        ⟨li0, hmem0,
          (lineWalk_noneReturn_iff db now linesInfo li0).mpr hq0⟩]
  refine ⟨hmain, ?_, ?_⟩
  · intro db2 h
    rw [hmain] at h
    exact absurd h (by simp)
  · intro faults h
    rw [hmain] at h
    simp at h

/-- Witness for C10: a zero-quantity tracked line raises `TypeError`
even on a state where the candidate stock carries another line's live
reservation and no allocations (the reservation query matches nothing,
so the per-line loop is reached and dies at the unpacking). -/
theorem c10_witness :
    reserve_stocks dbOtherHold 1000 linesZero = .error .typeError ∧
    (∀ db2, reserve_stocks dbOtherHold 1000 linesZero ≠ .ok db2) ∧
    (∀ faults, reserve_stocks dbOtherHold 1000 linesZero ≠
      .error (.insufficientStock faults)) :=
  c10_zero_quantity_type_error dbOtherHold 1000 linesZero
    ⟨⟨⟨11, 0⟩, some variant1⟩, by decide, by decide⟩

/-- Claim C5 (confirmed): The stock walk of `_create_reservations`
implements exactly the spec's greedy recurrence: the reservations its
loop accumulates coincide, for every requested quantity, baseline and
ordered stock list, with the spec-side greedy walk that reserves
`min(remainingNeeded, max(quantity - allocated - reservedBaseline, 0))`
at each stock until satisfied or exhausted. On scenario B (two stocks of
quantity 3 of the same variant, supplied out of order, request 5) the
full `reserve_stocks` creates a reservation of 3 on the lower-pk stock
and of 2 on the higher-pk stock. -/
theorem c5_greedy_walk :
    (∀ (q : Int) (allocD resD : Nat → Int) (linePk : Nat) (expiry : Int)
      (stocks : List StockData),
      (crLoop q allocD resD linePk expiry stocks 0 []).2.1 =
        specGreedyWalk linePk expiry allocD resD stocks q) ∧
    reserve_stocks dbScenB 1000 [lineA] =
      .ok ⟨dbScenB.stocks, dbScenB.allocations,
        [⟨11, 1, 3, 100⟩, ⟨11, 2, 2, 100⟩]⟩ := by
  constructor
  · intro q allocD resD linePk expiry stocks
    simpa using crLoop_acc q allocD resD linePk expiry stocks 0 []
  · decide

theorem mem_of_getLast?_eq {α : Type} {l : List α} {a : α}
    (h : l.getLast? = some a) : a ∈ l := by
  obtain ⟨hne, heq⟩ :=
    List.mem_getLast?_eq_getLast (l := l) (x := a) (by rw [h]; rfl)
  rw [heq]; exact List.getLast_mem hne

theorem joined_alloc_vals (db : DB) (stocks : List Stock) :
    (joinedAllocationRows db stocks).filterMap
      (fun p => p.2.map (·.quantityAllocated)) =
    stocks.flatMap (fun s =>
      (db.allocations.filter (fun a =>
        decide (a.stockId = s.pk))).map (·.quantityAllocated)) := by
  induction stocks with
  | nil => rfl
  | cons s rest ih =>
    unfold joinedAllocationRows at ih ⊢
    rw [List.flatMap_cons, List.flatMap_cons, List.filterMap_append, ih]
    congr 1
    cases hf : db.allocations.filter (fun a =>
        decide (a.stockId = s.pk)) with
    | nil => simp
    | cons a l =>
      simp only [List.filterMap_cons, List.filterMap_map, Option.map_some]
      exact congrFun (List.filterMap_eq_map (fun x => x.quantityAllocated))
        (a :: l)

theorem joined_quantity_mem (db : DB) (stocks : List Stock) (x : Int) :
    (x ∈ (joinedAllocationRows db stocks).map (fun p => p.1.quantity)) ↔
      x ∈ stocks.map (·.quantity) := by
  simp only [List.mem_map, joinedAllocationRows, List.mem_flatMap]
  constructor
  · rintro ⟨p, ⟨s, hs, hp⟩, hx⟩
    refine ⟨s, hs, ?_⟩
    have hfst : p.1 = s := by
      revert hp
      cases db.allocations.filter (fun a =>
          decide (a.stockId = s.pk)) with
      | nil =>
        intro hp
        simp only [List.mem_singleton] at hp
        rw [hp]
      | cons a l =>
        intro hp
        simp only [List.mem_map] at hp
        obtain ⟨b, _, hb⟩ := hp
        rw [← hb]
    rw [← hfst]; exact hx
  · rintro ⟨s, hs, hx⟩
    cases hf : db.allocations.filter (fun a =>
        decide (a.stockId = s.pk)) with
    | nil => exact ⟨(s, none), ⟨s, hs, by rw [hf]; simp⟩, hx⟩
    | cons a l =>
      exact ⟨(s, some a), ⟨s, hs, by rw [hf]; simp⟩, hx⟩

theorem dedup_sum_eq_of_mem_iff {l l' : List Int}
    (h : ∀ x, x ∈ l ↔ x ∈ l') : l.dedup.sum = l'.dedup.sum :=
  ((List.perm_ext_iff_of_nodup (List.nodup_dedup l)
      (List.nodup_dedup l')).mpr (fun a => by
        simp only [List.mem_dedup]; exact h a)).sum_eq

/-- Claim C4 (counterexample): On two stocks of the same variant each with
quantity 3, no allocations and no reservations, the availability
aggregate returns 3, not the claimed `max(3 + 3 - 0 - 0, 0) = 6`:
`Sum("quantity", distinct=True)` collapses the two equal quantity
values. -/
theorem c4_counterexample :
    get_available_quantity_agg dbEqualQty 0 dbEqualQty.stocks [] = 3 ∧
    (dbEqualQty.stocks.map (·.quantity)).sum = 6 ∧
    get_reserved_quantity dbEqualQty 0
      (dbEqualQty.stocks.map (·.pk)) [] = 0 ∧
    dbEqualQty.allocations = [] ∧
    max ((6 : Int) - 0 - 0) 0 = 6 ∧ (3 : Int) ≠ 6 := by
  refine ⟨by decide, by decide, by decide, by decide, by decide,
    by decide⟩

/-- Claim C4 (amended): For every stock set and exclusion set, the
availability aggregate equals
`max(totalDistinct - allocated - reserved, 0)` where `totalDistinct` is
the sum of the *distinct* quantity values among the stocks (the SQL
`SUM(DISTINCT quantity)`), `allocated` the sum of `quantity_allocated`
over the stocks' allocations, and `reserved` the sum of
`quantity_reserved` over their non-expired reservations excluding the
given lines; the result is never negative. -/
theorem c4_available_quantity_clamped (db : DB) (now : Int)
    (stocks : List Stock) (lines : List Nat) :
    get_available_quantity_agg db now stocks lines =
      max (((stocks.map (·.quantity)).dedup).sum -
        (stocks.flatMap (fun s =>
          (db.allocations.filter (fun a =>
            decide (a.stockId = s.pk))).map (·.quantityAllocated))).sum -
        get_reserved_quantity db now (stocks.map (·.pk)) lines) 0 ∧
    0 ≤ get_available_quantity_agg db now stocks lines := by
  constructor
  · simp only [get_available_quantity_agg]
    rw [joined_alloc_vals,
      dedup_sum_eq_of_mem_iff (joined_quantity_mem db stocks)]
  · exact le_max_right _ _

/-- Claim C6 (code_bug): A single tracking variant with zero candidate
stock rows and requested quantity 1 is one unsatisfiable request, yet
the raised fault carries two identical entries for it: the zero-stock
rule and the shortfall rule both append. -/
theorem c6_duplicate_fault_entries :
    check_stock_quantity_bulk dbEmpty 0 [variant1] [1] [] =
      .error [⟨1, none, some 0⟩, ⟨1, none, some 0⟩] ∧
    ¬ ([⟨1, none, some 0⟩, ⟨1, none, some 0⟩] :
        List InsufficientStockData).Nodup := by
  refine ⟨by decide, by decide⟩

/-- Claim C7 (code_bug): A variant with `tracksInventory = false` and zero
candidate stock rows makes `check_stock_quantity_bulk` raise
`InsufficientStock` naming that exempt variant (even at requested
quantity 0), although `reserve_stocks` and `check_stock_quantity` do
exempt it. -/
theorem c7_exempt_variant_faulted :
    check_stock_quantity_bulk dbEmpty 0 [⟨1, false⟩] [0] [] =
      .error [⟨1, none, some 0⟩] ∧
    reserve_stocks dbEmpty 0 [⟨⟨11, 7⟩, some ⟨1, false⟩⟩] =
      .ok dbEmpty ∧
    check_stock_quantity dbEmpty 0 ⟨1, false⟩ [] 7 [] = .ok () := by
  refine ⟨by decide, by decide, by decide⟩

/-- Claim C8 (confirmed): In `check_stock_quantity_bulk`, a variant that
tracks inventory but has zero candidate stock rows is always included in
the raised `InsufficientStock` fault (with known available quantity 0),
whatever its requested quantity. -/
theorem c8_zero_stock_always_faulted (db : DB) (now : Int)
    (variants : List Variant) (quantities : List Int) (lines : List Nat)
    (v : Variant) (q : Int) (hmem : (v, q) ∈ variants.zip quantities)
    (htrack : v.track_inventory = true)
    (hnostock : ∀ s ∈ db.stocks, s.productVariant ≠ v.pk) :
    ∃ faults,
      check_stock_quantity_bulk db now variants quantities lines =
        .error faults ∧
      (⟨v.pk, none, some 0⟩ : InsufficientStockData) ∈ faults := by
  have hsub : ∀ s ∈ db.stocks.filter (fun s =>
      decide (s.productVariant ∈ variants.map (·.pk))), s ∈ db.stocks :=
    fun s hs => (List.mem_filter.mp hs).1
  have hvstocks : (db.stocks.filter (fun s =>
      decide (s.productVariant ∈ variants.map (·.pk)))).filter
        (fun s => decide (s.productVariant = v.pk)) = [] := by
    rw [List.filter_eq_nil_iff]
    intro s hs hc
    exact hnostock s (hsub s hs) (by simpa using hc)
  have hres : get_reserved_quantity_bulk db now
      (db.stocks.filter (fun s =>
        decide (s.productVariant ∈ variants.map (·.pk)))) lines v.pk
      = 0 := by
    unfold get_reserved_quantity_bulk
    by_cases h0 : v.pk = 0
    · rw [if_pos h0]
    · rw [if_neg h0]
      have hfil : db.reservations.filter (fun r =>
          decide (r.stockId ∈ (db.stocks.filter (fun s =>
            decide (s.productVariant ∈ variants.map (·.pk)))).map
              (·.pk)) &&
          decide (now < r.reservedUntil) &&
          decide (r.checkoutLine ∉ lines) &&
          decide (stockVariantLookup (db.stocks.filter (fun s =>
            decide (s.productVariant ∈ variants.map (·.pk))))
              r.stockId = some v.pk)) = [] := by
        rw [List.filter_eq_nil_iff]
        intro r _ hc
        simp only [Bool.and_eq_true, decide_eq_true_eq] at hc
        obtain ⟨-, hlook⟩ := hc
        unfold stockVariantLookup at hlook
        cases hg : ((db.stocks.filter (fun s =>
            decide (s.productVariant ∈ variants.map (·.pk)))).filter
              (fun s => decide (s.pk = r.stockId))).getLast? with
        | none => rw [hg] at hlook; simp at hlook
        | some s' =>
          rw [hg] at hlook
          simp at hlook
          have hs' := mem_of_getLast?_eq hg
          exact hnostock s' (hsub s' (List.mem_filter.mp hs').1) hlook
      rw [hfil]
      rfl
  have hentry : (⟨v.pk, none, some 0⟩ : InsufficientStockData) ∈
      bulkPairFaults db now (db.stocks.filter (fun s =>
        decide (s.productVariant ∈ variants.map (·.pk)))) lines
        (v, q) := by
    simp only [bulkPairFaults]
    rw [hvstocks, hres]
    simp
  have hfmem : (⟨v.pk, none, some 0⟩ : InsufficientStockData) ∈
      (variants.zip quantities).flatMap (bulkPairFaults db now
        (db.stocks.filter (fun s =>
          decide (s.productVariant ∈ variants.map (·.pk)))) lines) :=
    List.mem_flatMap.mpr ⟨(v, q), hmem, hentry⟩
  refine ⟨(variants.zip quantities).flatMap (bulkPairFaults db now
      (db.stocks.filter (fun s =>
        decide (s.productVariant ∈ variants.map (·.pk)))) lines),
    ?_, hfmem⟩
  unfold check_stock_quantity_bulk
  rw [if_neg (List.ne_nil_of_mem hfmem)]

/-- Witness for C8: a tracking variant with no stock rows at all and a
requested quantity of zero is still reported insufficient. -/
theorem c8_witness :
    ∃ faults,
      check_stock_quantity_bulk dbEmpty 0 [variant1] [0] [] =
        .error faults ∧
      (⟨1, none, some 0⟩ : InsufficientStockData) ∈ faults :=
  c8_zero_stock_always_faulted dbEmpty 0 [variant1] [0] [] variant1 0
    (by decide) (by decide) (fun s hs => absurd hs (List.not_mem_nil s))

/-- Claim C9 (counterexample): A product whose only variant has one stock
of quantity 5 fully held by a live reservation of another checkout line:
the reservation-aware availability is 0, no variant has positive
availability, yet `is_product_in_stock` returns `true` — the annotated
read ignores reservations and over-reports. -/
theorem c9_counterexample :
    is_product_in_stock dbReserved [1] = true ∧
    get_available_quantity_agg dbReserved 1000
      (dbReserved.stocks.filter (fun s =>
        decide (s.productVariant = 1))) [] = 0 ∧
    get_reserved_quantity dbReserved 1000 [1] [] = 5 := by
  refine ⟨by decide, by decide, by decide⟩

/-- Claim C9 (amended): the function `is_product_in_stock` returns `true` exactly when
some candidate stock of the product has a nonzero annotated
`available_quantity` (its quantity minus its committed allocations):
reservations and the clamp at zero play no part, so the read can
over-report relative to the reservation-aware aggregate, and a negative
annotation also counts as in stock. -/
theorem c9_in_stock_characterization (db : DB)
    (productVariantPks : List Nat) :
    is_product_in_stock db productVariantPks = true ↔
      ∃ s ∈ db.stocks, s.productVariant ∈ productVariantPks ∧
        annotatedAvailable db s ≠ 0 := by
  unfold is_product_in_stock
  rw [List.any_eq_true]
  constructor
  · rintro ⟨s, hs, hne⟩
    obtain ⟨hmem, hvar⟩ := List.mem_filter.mp hs
    exact ⟨s, hmem, by simpa using hvar, by simpa using hne⟩
  · rintro ⟨s, hmem, hvar, hne⟩
    exact ⟨s, List.mem_filter.mpr ⟨hmem, by simpa using hvar⟩,
      by simpa using hne⟩

end Saleor
